import Mathlib

/-!
Verification of the WASM bridge core of the daemon-os-ui repository.

The development shallowly embeds, in Lean:
* the JSON value model used for structured `ViewModel` payloads, together
  with the serializer (`JSON.stringify`) and parser (`JSON.parse`) that the
  bridge relies on for payload normalization (modelled as `renderJson` /
  `parseValue`; numeric payloads are modelled as integers);
* the `GameBridge` class (src/api/game/gameBridge.ts): its outbound queue,
  poll/enqueue operations, subscriber dispatch and `destroy`;
* the cross-realm message protocol between `WasmIframeWrapper` and the
  iframe host page (`wasm_host.html`): envelope shapes, the host-side
  `messageListener`, the child-side `QUEUE_WASM_EVENT` listener, and the
  child's WASM initialization outcome including the recognized
  "Using exceptions for control flow" benign-failure signature;
* the global registries of `createWasmCanvas` (`_wasmInitPromises`,
  `_wasmBridgeFuncs`, `_currentWasmEventPoller`, `_currentWebEventReceiver`)
  and the identity-checked clearing performed on teardown and on the
  initialization error path (function references are modelled as `Nat`
  tokens, JS `===` on functions as equality of tokens);
* the process-wide delegates `window.wasm_event` / `window.web_event`
  installed by `setupGlobalEventDelegates`.
-/

namespace WasmBridge

/-! ### JSON value model

`Json` models the structured values that can appear as a `ViewModel`
payload: numbers (modelled as integers), arrays that are lists of values,
and objects that are ordered key/value member lists.  `JArr` and `JObj`
are the spines of arrays and objects; a mutual inductive is used so that
structural induction over values, element lists and member lists is
available directly. -/

mutual

inductive Json : Type where
  | num : Int → Json
  | arr : JArr → Json
  | obj : JObj → Json

inductive JArr : Type where
  | nil : JArr
  | cons : Json → JArr → JArr

inductive JObj : Type where
  | nil : JObj
  | cons : String → Json → JObj → JObj

end

/-- Character for a single decimal digit. -/
def digitChar : Nat → Char
  | 0 => '0'
  | 1 => '1'
  | 2 => '2'
  | 3 => '3'
  | 4 => '4'
  | 5 => '5'
  | 6 => '6'
  | 7 => '7'
  | 8 => '8'
  | 9 => '9'
  | _ => '0'

/-- Numeric value of a decimal digit character. -/
def digitVal (c : Char) : Nat := c.toNat - 48

/-- Fuel-bounded big-endian decimal digits of `n` (empty for `n = 0`);
fuel `n` always suffices because `n / 10 < n` for positive `n`. -/
def natCharsAux : Nat → Nat → List Char
  | 0, _ => []
  | fuel + 1, n => if n = 0 then [] else natCharsAux fuel (n / 10) ++ [digitChar (n % 10)]

/-- Decimal rendering of a natural number, as `JSON.stringify` prints it. -/
def natChars (n : Nat) : List Char := if n = 0 then ['0'] else natCharsAux n n

/-- Decimal rendering of an integer, as `JSON.stringify` prints it. -/
def intChars (i : Int) : List Char :=
  if i < 0 then '-' :: natChars i.natAbs else natChars i.toNat

/-- String-body escaping used by `JSON.stringify`: quote and backslash
characters are preceded by a backslash. -/
def escChars : List Char → List Char
  | [] => []
  | c :: cs => (if c = '"' then ['\\', '"'] else if c = '\\' then ['\\', '\\'] else [c]) ++ escChars cs

/-- Rendering of an object key followed by the member separator: a quoted,
escaped string and a colon. -/
def renderKey (k : String) : List Char := '"' :: (escChars k.data ++ ['"', ':'])

mutual

/-- `JSON.stringify` on a value, producing the exact character sequence. -/
def renderJson : Json → List Char
  | .num i => intChars i
  | .arr es => '[' :: renderElems es
  | .obj ms => '\x7b' :: renderMembers ms

/-- Rendering of array elements (everything after the opening bracket). -/
def renderElems : JArr → List Char
  | .nil => [']']
  | .cons j .nil => renderJson j ++ [']']
  | .cons j (.cons j2 es) => renderJson j ++ ',' :: renderElems (.cons j2 es)

/-- Rendering of object members (everything after the opening brace). -/
def renderMembers : JObj → List Char
  | .nil => ['\x7d']
  | .cons k v .nil => renderKey k ++ (renderJson v ++ ['\x7d'])
  | .cons k v (.cons k2 v2 ms) => renderKey k ++ (renderJson v ++ ',' :: renderMembers (.cons k2 v2 ms))

end

/-- The characters that follow the first element of a nonempty array:
either the closing bracket, or a comma and the remaining elements. -/
def restElems : JArr → List Char
  | .nil => [']']
  | .cons j es => ',' :: renderElems (.cons j es)

/-- The characters that follow the first member of a nonempty object:
either the closing brace, or a comma and the remaining members. -/
def restMembers : JObj → List Char
  | .nil => ['\x7d']
  | .cons k v ms => ',' :: renderMembers (.cons k v ms)

/- Size measure used to bound the parsing fuel: one unit per value plus
one unit per array element or object member. -/
mutual

def sizeJ : Json → Nat
  | .num _ => 1
  | .arr es => 1 + sizeA es
  | .obj ms => 1 + sizeO ms

def sizeA : JArr → Nat
  | .nil => 0
  | .cons j es => 1 + sizeJ j + sizeA es

def sizeO : JObj → Nat
  | .nil => 0
  | .cons _ v ms => 1 + sizeJ v + sizeO ms

end

/-- Parse a natural number: one or more leading decimal digits. -/
def parseNat (cs : List Char) : Option (Nat × List Char) :=
  let ds := cs.takeWhile Char.isDigit
  if ds = [] then none
  else some (ds.foldl (fun a c => 10 * a + digitVal c) 0, cs.dropWhile Char.isDigit)

/-- Parse an integer: an optional minus sign followed by digits. -/
def parseInt : List Char → Option (Int × List Char)
  | [] => none
  | c :: cs =>
    if c = '-' then (parseNat cs).map fun p => (-(p.1 : Int), p.2)
    else (parseNat (c :: cs)).map fun p => ((p.1 : Int), p.2)

/-- Parse a string body after the opening quote, honoring backslash
escapes, up to and including the closing quote. -/
def parseStrChars : List Char → Option (List Char × List Char)
  | [] => none
  | [c] => if c = '"' then some ([], []) else none
  | c :: d :: rest =>
    if c = '\\' then (parseStrChars rest).map fun p => (d :: p.1, p.2)
    else if c = '"' then some ([], d :: rest)
    else (parseStrChars (d :: rest)).map fun p => (c :: p.1, p.2)

mutual

/-- Fuel-bounded recursive-descent parser for a JSON value, the embedding
of `JSON.parse` on the grammar produced by `renderJson`. -/
def parseValue : Nat → List Char → Option (Json × List Char)
  | 0, _ => none
  | fuel + 1, cs =>
    match cs with
    | [] => none
    | c :: rest =>
      if c = '[' then
        match rest with
        | [] => none
        | d :: rest2 =>
          if d = ']' then some (.arr .nil, rest2)
          else (parseElems fuel (d :: rest2)).map fun p => (.arr p.1, p.2)
      else if c = '\x7b' then
        match rest with
        | [] => none
        | d :: rest2 =>
          if d = '\x7d' then some (.obj .nil, rest2)
          else (parseMembers fuel (d :: rest2)).map fun p => (.obj p.1, p.2)
      else (parseInt (c :: rest)).map fun p => (.num p.1, p.2)

/-- Parser for the elements of a nonempty array, including the closing
bracket. -/
def parseElems : Nat → List Char → Option (JArr × List Char)
  | 0, _ => none
  | fuel + 1, cs =>
    (parseValue fuel cs).bind fun p =>
      match p.2 with
      | [] => none
      | c :: rest =>
        if c = ',' then (parseElems fuel rest).map fun q => (.cons p.1 q.1, q.2)
        else if c = ']' then some (.cons p.1 .nil, rest)
        else none

/-- Parser for the members of a nonempty object, including the closing
brace. -/
def parseMembers : Nat → List Char → Option (JObj × List Char)
  | 0, _ => none
  | fuel + 1, cs =>
    match cs with
    | [] => none
    | c :: rest =>
      if c = '"' then
        (parseStrChars rest).bind fun kp =>
          match kp.2 with
          | [] => none
          | d :: rest2 =>
            if d = ':' then
              (parseValue fuel rest2).bind fun vp =>
                match vp.2 with
                | [] => none
                | e :: rest3 =>
                  if e = ',' then
                    (parseMembers fuel rest3).map fun mp =>
                      (.cons (String.mk kp.1) vp.1 mp.1, mp.2)
                  else if e = '\x7d' then some (.cons (String.mk kp.1) vp.1 .nil, rest3)
                  else none
            else none
      else none

end

/-- `JSON.stringify` as a `String`-valued function. -/
def stringifyJson (j : Json) : String := String.mk (renderJson j)

/-- `JSON.parse`: parse a complete string as one JSON value with no
trailing characters. -/
def parseJsonStr (s : String) : Option Json :=
  match parseValue (s.data.length + 1) s.data with
  | some (j, []) => some j
  | _ => none

/-- Holds when a character list does not begin with a decimal digit, so a
preceding number literal cannot extend into it. -/
def noDigitHead : List Char → Bool
  | [] => true
  | c :: _ => !c.isDigit

/-! ### Event payloads (src/api/game/events.tsx)

`EventPayload` is the tagged record of optional variants.  A `ViewModel`
payload is either a plain string or a structured value (`VMPayload.obj`,
modelled by a `Json` value); `Drive` carries an empty object. -/

/-- The debug-mode selector variants of `RayMarchDebugEvent`. -/
inductive RayMarchDebug : Type where
  | Disabled
  | Normals
  | Steps
deriving DecidableEq

/-- A `ViewModel` payload: either an already-serialized string or a
structured object. -/
inductive VMPayload : Type where
  | str : String → VMPayload
  | obj : Json → VMPayload

/-- The combined event payload record; each field is optional, mirroring
the TypeScript optional properties. -/
structure EventPayload : Type where
  DebugRayMarch : Option RayMarchDebug := none
  ViewModel : Option VMPayload := none
  Drive : Option Unit := none

/-! ### GameBridge (src/api/game/gameBridge.ts)

State of one `GameBridge` instance.  Inbound handlers are modelled by
their observable behavior on an event: `none` means the handler returns
normally, `some msg` means it throws an exception carrying `msg`. -/

/-- Result of polling a queue: the next event, or the `'Empty'` sentinel
string returned to the WASM side. -/
inductive PollResult : Type where
  | event : EventPayload → PollResult
  | empty : PollResult

/-- The private fields of a `GameBridge` instance. -/
structure BridgeState : Type where
  eventQueue : List EventPayload := []
  jsEventQueue : List EventPayload := []
  wasmEventHandlers : List (EventPayload → Option String) := []

/-- A freshly constructed `GameBridge` (`new GameBridge()`): all fields
start empty. -/
def mkBridge : BridgeState := {}

/-- The normalization performed by `queueEventForWasm` (and by the iframe
`QUEUE_WASM_EVENT` listener): a `ViewModel` payload that is a structured
object (truthy and not of string type) is replaced by an event whose only
field is the `JSON.stringify`-serialized string; any other event is kept
as a shallow copy. -/
def normalizeEvent (e : EventPayload) : EventPayload :=
  match e.ViewModel with
  | some (.obj j) => { ViewModel := some (.str (stringifyJson j)) }
  | _ => e

/-- `GameBridge.pollJsEvent`: shift the head of `jsEventQueue`, returning
the `'Empty'` sentinel when the shift yields no element.  Queued events
are objects and therefore never falsy, so the `!event` test in the source
is exactly the emptiness test.  The operation is total: it never throws. -/
def pollJsEvent (st : BridgeState) : PollResult × BridgeState :=
  match st.jsEventQueue with
  | [] => (.empty, st)
  | e :: rest => (.event e, { st with jsEventQueue := rest })

/-- `GameBridge.queueEventForWasm`: push the normalized event at the tail
of `jsEventQueue`.  The operation is total: it never throws. -/
def queueEventForWasm (st : BridgeState) (e : EventPayload) : BridgeState :=
  { st with jsEventQueue := st.jsEventQueue ++ [normalizeEvent e] }

/-- `GameBridge.getWasmEvent`: shift the head of `eventQueue`, with the
`'Empty'` sentinel when the queue is exhausted. -/
def getWasmEvent (st : BridgeState) : PollResult × BridgeState :=
  match st.eventQueue with
  | [] => (.empty, st)
  | e :: rest => (.event e, { st with eventQueue := rest })

/-- `GameBridge.onWasmEvent`: append a subscriber to the handler list. -/
def onWasmEvent (st : BridgeState) (h : EventPayload → Option String) : BridgeState :=
  { st with wasmEventHandlers := st.wasmEventHandlers ++ [h] }

/-- `GameBridge.clearJsEventQueue`. -/
def clearJsEventQueue (st : BridgeState) : BridgeState :=
  { st with jsEventQueue := [] }

/-- `GameBridge.destroy`: reset the outbound queue and the subscriber
list. -/
def destroy (st : BridgeState) : BridgeState :=
  { st with jsEventQueue := [], wasmEventHandlers := [] }

/-- The dispatch loop of `GameBridge.receiveWasmEvent`
(`handlers.forEach(handler => handler(event))`): handlers run in order;
a thrown exception propagates out of `forEach`, so dispatch stops at the
first throwing handler.  The result records how many handlers were
invoked and the propagated exception, if any. -/
def runHandlers : List (EventPayload → Option String) → EventPayload → Nat × Option String
  | [], _ => (0, none)
  | h :: hs, e =>
    match h e with
    | some msg => (1, some msg)
    | none =>
      let r := runHandlers hs e
      (r.1 + 1, r.2)

/-- `GameBridge.receiveWasmEvent` on the handler list of a bridge
state. -/
def receiveWasmEvent (st : BridgeState) (e : EventPayload) : Nat × Option String :=
  runHandlers st.wasmEventHandlers e

/-- Iterated polling: perform `n` successive `pollJsEvent` calls and
collect the results in order. -/
def pollList (st : BridgeState) : Nat → List PollResult × BridgeState
  | 0 => ([], st)
  | n + 1 =>
    let p := pollJsEvent st
    let q := pollList p.2 n
    (p.1 :: q.1, q.2)

/-- Enqueue a whole list of events in order. -/
def enqueueAll (st : BridgeState) (es : List EventPayload) : BridgeState :=
  es.foldl queueEventForWasm st

/-! ### Cross-realm message protocol
(`WasmIframeWrapper.tsx` and `public/wasm_host.html`)

Messages are plain objects `{ type, payload }`.  Child-to-host messages
carry an addressed payload object that spreads `{ instanceId, ... }`;
the host-to-child `QUEUE_WASM_EVENT` message carries the raw event object
as its payload, which has no `instanceId` property. -/

/-- The message kinds exchanged on the window message channel. -/
inductive MsgType : Type where
  | IFRAME_READY
  | WASM_ERROR
  | WASM_EVENT
  | QUEUE_WASM_EVENT
deriving DecidableEq

/-- The `{ instanceId?, error?, event? }` payload shape used by
child-to-host notifications. -/
structure AddressedPayload : Type where
  instanceId : Option String := none
  error : Option String := none
  event : Option EventPayload := none

/-- A message payload: an addressed notification object, a raw event
object (the `QUEUE_WASM_EVENT` shape), or absent. -/
inductive MsgPayload : Type where
  | addressed : AddressedPayload → MsgPayload
  | rawEvent : EventPayload → MsgPayload
  | missing : MsgPayload

/-- A message on the window channel. -/
structure Message : Type where
  type : MsgType
  payload : MsgPayload

/-- Reading `message.payload?.instanceId`: a raw event object and an
absent payload both yield `undefined`. -/
def payloadInstanceId : MsgPayload → Option String
  | .addressed p => p.instanceId
  | .rawEvent _ => none
  | .missing => none

/-- Reading `message.payload.error`. -/
def payloadError : MsgPayload → Option String
  | .addressed p => p.error
  | _ => none

/-- Reading `message.payload.event`. -/
def payloadEvent : MsgPayload → Option EventPayload
  | .addressed p => p.event
  | _ => none

/-- JS truthiness of an optional string identifier: `undefined` and the
empty string are falsy. -/
def idFalsy : Option String → Bool
  | none => true
  | some s => s = ""

/-- `notifyParent` in `wasm_host.html`: posts
`{ type, payload: { instanceId, ...payload } }`, so the child's instance
identifier is always present. -/
def notifyParent (childId : String) (ty : MsgType) (err : Option String) : Message :=
  { type := ty, payload := .addressed { instanceId := some childId, error := err } }

/-- `iframeReceiveWasmEvent` in `wasm_host.html`: forwards an event from
WASM to the parent as a `WASM_EVENT` message carrying the child's
instance identifier. -/
def forwardWasmEvent (childId : String) (e : EventPayload) : Message :=
  { type := .WASM_EVENT,
    payload := .addressed { instanceId := some childId, event := some e } }

/-- `queueEventForWasm` of the bridge interface built by
`WasmIframeWrapper.createBridgeInterface`: posts
`{ type: 'QUEUE_WASM_EVENT', payload: event }` to the iframe — the raw
event is the whole payload and no instance identifier is attached. -/
def queueWasmEventMessage (e : EventPayload) : Message :=
  { type := .QUEUE_WASM_EVENT, payload := .rawEvent e }

/-- The child-side window message listener of `wasm_host.html`: on
`QUEUE_WASM_EVENT` with a truthy payload, normalize the event and push it
onto the iframe-local queue.  The child's own `instanceId` (the first
argument) is never consulted: no identifier check is performed. -/
def childHandleMessage (_childId : String) (queue : List EventPayload) (m : Message) :
    List EventPayload :=
  match m.type, m.payload with
  | .QUEUE_WASM_EVENT, .rawEvent e => queue ++ [normalizeEvent e]
  | _, _ => queue

/-- The observable signals of one `WasmIframeWrapper` instance. -/
structure WrapperState : Type where
  isReady : Bool := false
  error : Option String := none

/-- The error string surfaced for a falsy `payload.error`
(`message.payload.error || 'Unknown WASM error'`). -/
def errorOrDefault : Option String → String
  | none => "Unknown WASM error"
  | some s => if s = "" then "Unknown WASM error" else s

/-- The host-side `messageListener` of `WasmIframeWrapper`.  `IFRAME_READY`
and `WASM_ERROR` are processed only when the payload's identifier equals
this wrapper's `instanceId`; `WASM_EVENT` is also processed when the
identifier is falsy (broadcast).  The returned list is the sequence of
events dispatched to the wrapper's subscribed handlers (each invocation
is individually wrapped in try/catch by the source). -/
def messageListener (myId : String) (st : WrapperState) (m : Message) :
    WrapperState × List EventPayload :=
  match m.type with
  | .IFRAME_READY =>
    if payloadInstanceId m.payload = some myId then
      ({ isReady := true, error := none }, [])
    else (st, [])
  | .WASM_ERROR =>
    if payloadInstanceId m.payload = some myId then
      ({ isReady := false, error := some (errorOrDefault (payloadError m.payload)) }, [])
    else (st, [])
  | .WASM_EVENT =>
    if payloadInstanceId m.payload = some myId ∨ idFalsy (payloadInstanceId m.payload) then
      match payloadEvent m.payload with
      | some e => (st, [e])
      | none => (st, [])
    else (st, [])
  | .QUEUE_WASM_EVENT => (st, [])

/-- The per-handler try/catch dispatch used for `WASM_EVENT` in
`WasmIframeWrapper`: every handler is invoked, exceptions are caught and
logged, and the number of invoked handlers is returned. -/
def wrapperDispatch : List (EventPayload → Option String) → EventPayload → Nat
  | [], _ => 0
  | h :: hs, e =>
    match h e with
    | _ => wrapperDispatch hs e + 1

/-! ### Child WASM initialization (`wasm_host.html`) and the injected
loader script (`loadWasmViaScript` in `createWasmCanvas`). -/

/-- The fixed benign-failure signature substring. -/
def controlFlowSubstr : String := "Using exceptions for control flow"

/-- Whether `small` occurs at the head of `big`. -/
def leadsWith : List Char → List Char → Bool
  | [], _ => true
  | _ :: _, [] => false
  | a :: as, b :: bs => a = b && leadsWith as bs

/-- Whether `needle` occurs anywhere in `hay` (`String.includes`). -/
def hasSub (needle : List Char) : List Char → Bool
  | [] => leadsWith needle []
  | c :: t => leadsWith needle (c :: t) || hasSub needle t

/-- `errorMessage.includes('Using exceptions for control flow')`. -/
def isControlFlowException (msg : String) : Bool :=
  hasSub controlFlowSubstr.data msg.data

/-- JS truthiness of an optional URL parameter (`null` and the empty
string are falsy). -/
def optFalsy : Option String → Bool
  | none => true
  | some s => s = ""

/-- The message the child posts at the end of `initializeWasm` in
`wasm_host.html`, as a function of the URL parameters and of the outcome
of `await init(wasmPath)` (`.ok` for normal return, `.error msg` for a
thrown error with message `msg`): a configuration error for missing
paths; otherwise `IFRAME_READY` on normal return, and on a thrown error
either `IFRAME_READY` (benign control-flow signature) or `WASM_ERROR`
with the message. -/
def childInitNotify (childId : String) (jsPath wasmPath : Option String)
    (initResult : Except String Unit) : Message :=
  if optFalsy jsPath ∨ optFalsy wasmPath then
    notifyParent childId .WASM_ERROR (some "Missing jsPath or wasmPath URL parameters.")
  else
    match initResult with
    | .ok _ => notifyParent childId .IFRAME_READY none
    | .error msg =>
      if isControlFlowException msg then notifyParent childId .IFRAME_READY none
      else notifyParent childId .WASM_ERROR (some msg)

/-- How the injected loader script settles the instance's registered
promise after `await init(wasmPath, wasmImports)`: resolution on normal
return, resolution on the benign control-flow signature, rejection with
the error otherwise. -/
inductive PromiseSettle : Type where
  | resolved
  | rejectedWith : String → PromiseSettle
deriving DecidableEq

/-- The settle action of the injected script's catch-all
(`loadWasmViaScript` script body). -/
def injectedSettle (initResult : Except String Unit) : PromiseSettle :=
  match initResult with
  | .ok _ => .resolved
  | .error msg =>
    if isControlFlowException msg then .resolved else .rejectedWith msg

/-- The hook state `initialize` reaches once `loadWasmViaScript`'s promise
settles: `isReady` with no error on resolution, `Error` (with the prefixed
message) on rejection. -/
def settleHookState (s : PromiseSettle) : WrapperState :=
  match s with
  | .resolved => { isReady := true, error := none }
  | .rejectedWith m => { isReady := false, error := some ("Initialization failed: " ++ m) }

/-! ### Global registries and lifecycle (`createWasmCanvas`)

Function references are modelled as `Nat` tokens; JS `===` on function
values is equality of tokens, and `undefined === undefined` is true, which
the `Option` equality below reproduces.  The two registries are
association lists keyed by instance identifier; JS `delete` removes every
binding of the key. -/

/-- An instance's pair of registered bridge functions
(`_wasmBridgeFuncs[id] = { poll, receive }`). -/
structure BridgeFuncs : Type where
  poll : Nat
  receive : Nat
deriving DecidableEq

/-- The process-wide mutable state: the two per-instance registries and
the two current-target pointers. -/
structure GlobalState : Type where
  wasmInitPromises : List (String × Nat) := []
  wasmBridgeFuncs : List (String × BridgeFuncs) := []
  currentWasmEventPoller : Option Nat := none
  currentWebEventReceiver : Option Nat := none

/-- Association-list lookup (`registry[id]`, `undefined` when absent). -/
def lookupA {α : Type} (uid : String) : List (String × α) → Option α
  | [] => none
  | (k, v) :: t => if k = uid then some v else lookupA uid t

/-- Association-list delete (`delete registry[id]`). -/
def eraseA {α : Type} (uid : String) (l : List (String × α)) : List (String × α) :=
  l.filter fun p => p.1 ≠ uid

/-- The registry portion of the hook's `onCleanup`: reject (if present)
and delete the promise entry, read this identifier's registered `poll`
reference, delete the bridge-function entry, then clear the two global
pointers only when the current poller is reference-identical to the
registered `poll`.  The second component lists the promise references
that were rejected. -/
def onCleanupGlobals (uid : String) (g : GlobalState) : GlobalState × List Nat :=
  let rejected : List Nat :=
    match lookupA uid g.wasmInitPromises with
    | some p => [p]
    | none => []
  let pollerForThisInstance : Option Nat := (lookupA uid g.wasmBridgeFuncs).map (·.poll)
  ({ wasmInitPromises := eraseA uid g.wasmInitPromises,
     wasmBridgeFuncs := eraseA uid g.wasmBridgeFuncs,
     currentWasmEventPoller :=
       if g.currentWasmEventPoller = pollerForThisInstance then none
       else g.currentWasmEventPoller,
     currentWebEventReceiver :=
       if g.currentWasmEventPoller = pollerForThisInstance then none
       else g.currentWebEventReceiver }, rejected)

/-- The registry portion of `initialize`'s catch block: clear the global
pointers only when the current poller is reference-identical to this
identifier's registered `poll`, then delete both registry entries. -/
def initErrorCleanupGlobals (uid : String) (g : GlobalState) : GlobalState :=
  let pollerForThisInstance : Option Nat := (lookupA uid g.wasmBridgeFuncs).map (·.poll)
  { wasmInitPromises := eraseA uid g.wasmInitPromises,
    wasmBridgeFuncs := eraseA uid g.wasmBridgeFuncs,
    currentWasmEventPoller :=
      if g.currentWasmEventPoller = pollerForThisInstance then none
      else g.currentWasmEventPoller,
    currentWebEventReceiver :=
      if g.currentWasmEventPoller = pollerForThisInstance then none
      else g.currentWebEventReceiver }

/-- The guard at the top of the injected loader script: it proceeds only
when both registry entries for its instance identifier exist. -/
def injectedScriptFindsRegistry (uid : String) (g : GlobalState) : Bool :=
  (lookupA uid g.wasmInitPromises).isSome && (lookupA uid g.wasmBridgeFuncs).isSome

/-- The outcome of the synchronous prefix of `initialize` (everything up
to the `await` of `loadWasmViaScript`). -/
structure InitPrefixResult : Type where
  error : Option String
  globals : GlobalState
  canvasId : String
  scriptInjected : Bool
  rejected : List Nat

/-- The synchronous prefix of `initialize(canvas, bridge)`: path
validation, then force-cleanup of stale entries for this identifier,
canvas renaming to the loader's required identifier, registration of the
instance's functions, claiming of the global pointers, and promise
registration by `loadWasmViaScript` before script injection.  On a falsy
`jsPath` or `wasmPath` it sets the error signal and returns before any of
those effects. -/
def initSyncPrefix (uid requiredCanvasId : String) (jsPath wasmPath : String)
    (pollRef recvRef promRef : Nat) (g : GlobalState) (canvasId : String) :
    InitPrefixResult :=
  if jsPath = "" ∨ wasmPath = "" then
    { error := some "WASM JS or WASM file path is missing.",
      globals := g, canvasId := canvasId, scriptInjected := false, rejected := [] }
  else
    let rejected : List Nat :=
      match lookupA uid g.wasmInitPromises with
      | some p => [p]
      | none => []
    let promises1 := eraseA uid g.wasmInitPromises
    let funcs1 := eraseA uid g.wasmBridgeFuncs
    -- The force-cleanup's stale-pointer clear is not observable in the
    -- prefix result: registration immediately re-points both global
    -- pointers at this instance's freshly registered functions.
    { error := none,
      globals :=
        { wasmInitPromises := (uid, promRef) :: promises1,
          wasmBridgeFuncs := (uid, ⟨pollRef, recvRef⟩) :: funcs1,
          currentWasmEventPoller := some pollRef,
          currentWebEventReceiver := some recvRef },
      canvasId := requiredCanvasId,
      scriptInjected := true,
      rejected := rejected }

/-! ### Process-wide delegates (`setupGlobalEventDelegates`) -/

/-- `window.wasm_event`: delegate to the current poller when one is set,
returning the `'Empty'` sentinel when none is set or when the poller
throws. -/
def globalWasmEvent (poller : Option (Unit → Except String PollResult)) : PollResult :=
  match poller with
  | some p =>
    match p () with
    | .ok v => v
    | .error _ => .empty
  | none => .empty

/-- `window.web_event`: delegate to the current receiver when one is set;
exceptions from the receiver are caught and logged, and a missing
receiver only logs a warning, so the call always returns normally
(`Except.ok`). -/
def globalWebEvent (receiver : Option (EventPayload → Except String Unit))
    (e : EventPayload) : Except String Unit :=
  match receiver with
  | some r =>
    match r e with
    | .ok _ => Except.ok ()
    | .error _ => Except.ok ()
  | none => Except.ok ()

/-! ## Lemmas: decimal rendering and parsing of numbers -/

theorem digitChar_isDigit {d : Nat} (h : d < 10) : (digitChar d).isDigit = true := by
  interval_cases d <;> decide

theorem digitVal_digitChar {d : Nat} (h : d < 10) : digitVal (digitChar d) = d := by
  interval_cases d <;> decide

theorem natCharsAux_digits :
    ∀ fuel n : Nat, ∀ c ∈ natCharsAux fuel n, c.isDigit = true := by
  intro fuel
  induction fuel with
  | zero => intro n c hc; simp [natCharsAux] at hc
  | succ f ih =>
    intro n c hc
    by_cases hn : n = 0
    · simp [natCharsAux, hn] at hc
    · simp only [natCharsAux, if_neg hn, List.mem_append, List.mem_singleton] at hc
      rcases hc with hc | hc
      · exact ih _ c hc
      · subst hc; exact digitChar_isDigit (Nat.mod_lt _ (by norm_num))

theorem natChars_digits (n : Nat) : ∀ c ∈ natChars n, c.isDigit = true := by
  by_cases hn : n = 0
  · simp [natChars, hn]
  · simp only [natChars, if_neg hn]
    exact natCharsAux_digits n n

theorem natChars_ne_nil (n : Nat) : natChars n ≠ [] := by
  by_cases hn : n = 0
  · simp [natChars, hn]
  · obtain ⟨f, hf⟩ : ∃ f, n = f + 1 := ⟨n - 1, by omega⟩
    simp [natChars, hn, hf, natCharsAux]

theorem foldl_natCharsAux :
    ∀ fuel n : Nat, n ≤ fuel → ∀ acc : Nat,
      (natCharsAux fuel n).foldl (fun a c => 10 * a + digitVal c) acc
        = acc * 10 ^ (natCharsAux fuel n).length + n := by
  intro fuel
  induction fuel with
  | zero =>
    intro n hn acc
    have : n = 0 := by omega
    simp [natCharsAux, this]
  | succ f ih =>
    intro n hn acc
    by_cases h0 : n = 0
    · simp [natCharsAux, h0]
    · have hdiv : n / 10 ≤ f := by
        have : n / 10 < n := Nat.div_lt_self (Nat.pos_of_ne_zero h0) (by norm_num)
        omega
      have hmod : digitVal (digitChar (n % 10)) = n % 10 :=
        digitVal_digitChar (Nat.mod_lt _ (by norm_num))
      simp only [natCharsAux, if_neg h0, List.foldl_append, List.foldl_cons, List.foldl_nil,
        List.length_append, List.length_cons, List.length_nil, ih (n / 10) hdiv acc, hmod]
      have hpow : acc * 10 ^ ((natCharsAux f (n / 10)).length + (0 + 1))
          = acc * 10 ^ (natCharsAux f (n / 10)).length * 10 := by
        rw [pow_succ]; ring
      rw [hpow]
      generalize acc * 10 ^ (natCharsAux f (n / 10)).length = A
      omega

theorem natChars_val (n : Nat) :
    (natChars n).foldl (fun a c => 10 * a + digitVal c) 0 = n := by
  by_cases hn : n = 0
  · simp [natChars, hn, digitVal]
  · simp only [natChars, if_neg hn]
    have := foldl_natCharsAux n n le_rfl 0
    simpa using this

theorem takeWhile_append_all {p : Char → Bool} :
    ∀ l r : List Char, (∀ c ∈ l, p c = true) →
      (∀ c t, r = c :: t → p c = false) →
      (l ++ r).takeWhile p = l ∧ (l ++ r).dropWhile p = r := by
  intro l
  induction l with
  | nil =>
    intro r _ hr
    cases r with
    | nil => simp
    | cons c t => simp [List.takeWhile_cons, List.dropWhile_cons, hr c t rfl]
  | cons a l' ih =>
    intro r hl hr
    have ha : p a = true := hl a (by simp)
    have := ih r (fun c hc => hl c (by simp [hc])) hr
    simp [List.takeWhile_cons, List.dropWhile_cons, ha, this.1, this.2]

theorem noDigitHead_head {r : List Char} (h : noDigitHead r = true) :
    ∀ c t, r = c :: t → c.isDigit = false := by
  intro c t hr
  subst hr
  simpa [noDigitHead] using h

theorem parseNat_natChars (n : Nat) (rest : List Char) (h : noDigitHead rest = true) :
    parseNat (natChars n ++ rest) = some (n, rest) := by
  obtain ⟨ht, hd⟩ :=
    takeWhile_append_all (natChars n) rest (natChars_digits n) (noDigitHead_head h)
  simp only [parseNat]
  rw [ht, hd, if_neg (natChars_ne_nil n), natChars_val n]

theorem intChars_head (i : Int) :
    ∃ c t, intChars i = c :: t ∧ (c = '-' ∨ c.isDigit = true) := by
  by_cases hi : i < 0
  · exact ⟨'-', natChars i.natAbs, by simp [intChars, hi], Or.inl rfl⟩
  · obtain ⟨c, t, hct⟩ := List.exists_cons_of_ne_nil (natChars_ne_nil i.toNat)
    refine ⟨c, t, by simp [intChars, hi, hct], Or.inr ?_⟩
    exact natChars_digits i.toNat c (by rw [hct]; simp)

theorem isDigit_ne_dash {c : Char} (h : c.isDigit = true) : c ≠ '-' := by
  intro hc; subst hc; simp at h

theorem parseInt_intChars (i : Int) (rest : List Char) (h : noDigitHead rest = true) :
    parseInt (intChars i ++ rest) = some (i, rest) := by
  by_cases hi : i < 0
  · have hrw : intChars i ++ rest = '-' :: (natChars i.natAbs ++ rest) := by
      simp [intChars, hi]
    rw [hrw]
    simp [parseInt, parseNat_natChars i.natAbs rest h,
      Int.ofNat_natAbs_of_nonpos (le_of_lt hi)]
  · obtain ⟨c, t, hct⟩ := List.exists_cons_of_ne_nil (natChars_ne_nil i.toNat)
    have hdig : c.isDigit = true := natChars_digits i.toNat c (by rw [hct]; simp)
    have hdash : c ≠ '-' := isDigit_ne_dash hdig
    have hrw : intChars i ++ rest = c :: (t ++ rest) := by
      simp [intChars, hi, hct]
    rw [hrw]
    simp only [parseInt, if_neg hdash]
    have hback : c :: (t ++ rest) = natChars i.toNat ++ rest := by simp [hct]
    rw [hback, parseNat_natChars i.toNat rest h]
    simp [Int.toNat_of_nonneg (le_of_not_lt hi)]

/-! ## Lemmas: string escaping and key parsing -/

theorem parseStrChars_esc (s : List Char) (rest : List Char) :
    parseStrChars (escChars s ++ ('"' :: rest)) = some (s, rest) := by
  induction s generalizing rest with
  | nil =>
    cases rest with
    | nil => simp [escChars, parseStrChars]
    | cons d tl => simp [escChars, parseStrChars]
  | cons c s' ih =>
    by_cases hc1 : c = '"'
    · subst hc1
      rw [show escChars ('"' :: s') = '\\' :: '"' :: escChars s' from by simp [escChars]]
      simp [parseStrChars, ih]
    · by_cases hc2 : c = '\\'
      · subst hc2
        rw [show escChars ('\\' :: s') = '\\' :: '\\' :: escChars s' from by
          simp [escChars]]
        simp [parseStrChars, ih]
      · rw [show escChars (c :: s') = c :: escChars s' from by simp [escChars, hc1, hc2]]
        rw [List.cons_append]
        cases hE : escChars s' ++ '"' :: rest with
        | nil => exact absurd hE (by simp)
        | cons d tl =>
          simp only [parseStrChars, if_neg hc2, if_neg hc1]
          rw [← hE, ih]
          simp

/-! ## Lemmas: shapes of rendered values -/

theorem renderJson_head (j : Json) :
    ∃ c t, renderJson j = c :: t ∧ (c = '[' ∨ c = '\x7b' ∨ c = '-' ∨ c.isDigit = true) := by
  cases j with
  | num i =>
    obtain ⟨c, t, hct, hc⟩ := intChars_head i
    exact ⟨c, t, by simp [renderJson, hct], by tauto⟩
  | arr es => exact ⟨'[', renderElems es, rfl, by tauto⟩
  | obj ms => exact ⟨'\x7b', renderMembers ms, rfl, by tauto⟩

theorem renderElems_cons (x : Json) (es : JArr) :
    renderElems (.cons x es) = renderJson x ++ restElems es := by
  cases es <;> simp [renderElems, restElems]

theorem renderMembers_cons (k : String) (v : Json) (ms : JObj) :
    renderMembers (.cons k v ms) = renderKey k ++ (renderJson v ++ restMembers ms) := by
  cases ms <;> simp [renderMembers, restMembers]

theorem noDigitHead_restElems (es : JArr) (rest : List Char) :
    noDigitHead (restElems es ++ rest) = true := by
  cases es <;> simp [restElems, noDigitHead]

theorem noDigitHead_restMembers (ms : JObj) (rest : List Char) :
    noDigitHead (restMembers ms ++ rest) = true := by
  cases ms <;> simp [restMembers, noDigitHead]

/-! ## Lemmas: the size measure bounds the rendered length -/

mutual

theorem sizeJ_le_length (j : Json) : sizeJ j ≤ (renderJson j).length := by
  cases j with
  | num i =>
    obtain ⟨c, t, hct, _⟩ := intChars_head i
    simp [sizeJ, renderJson, hct]
  | arr es =>
    have := sizeA_le_length es
    simp only [sizeJ, renderJson, List.length_cons]
    omega
  | obj ms =>
    have := sizeO_le_length ms
    simp only [sizeJ, renderJson, List.length_cons]
    omega

theorem sizeA_le_length (es : JArr) : sizeA es ≤ (renderElems es).length := by
  cases es with
  | nil => simp [sizeA, renderElems]
  | cons x es' =>
    have hx := sizeJ_le_length x
    cases es' with
    | nil =>
      simp only [sizeA, renderElems, List.length_append, List.length_cons,
        List.length_nil]
      omega
    | cons y es'' =>
      have ht := sizeA_le_length (.cons y es'')
      simp only [sizeA, renderElems, List.length_append, List.length_cons] at *
      omega

theorem sizeO_le_length (ms : JObj) : sizeO ms ≤ (renderMembers ms).length := by
  cases ms with
  | nil => simp [sizeO, renderMembers]
  | cons k v ms' =>
    have hv := sizeJ_le_length v
    cases ms' with
    | nil =>
      simp only [sizeO, renderMembers, List.length_append, List.length_cons,
        List.length_nil]
      omega
    | cons k2 v2 ms'' =>
      have ht := sizeO_le_length (.cons k2 v2 ms'')
      simp only [sizeO, renderMembers, List.length_append, List.length_cons] at *
      omega

end

/-! ## The parser inverts the serializer -/

theorem head_ne_lbrackets {c : Char} (hc : c = '-' ∨ c.isDigit = true) :
    c ≠ '[' ∧ c ≠ '\x7b' := by
  rcases hc with hc | hc
  · subst hc; exact ⟨by decide, by decide⟩
  · constructor <;> intro he <;> subst he <;> exact absurd hc (by decide)

theorem head_ne_rbracket {c : Char}
    (hc : c = '[' ∨ c = '\x7b' ∨ c = '-' ∨ c.isDigit = true) : c ≠ ']' := by
  rcases hc with hc | hc | hc | hc
  · subst hc; decide
  · subst hc; decide
  · subst hc; decide
  · intro he; subst he; exact absurd hc (by decide)

theorem mk_data (k : String) : String.mk k.data = k := rfl

mutual

theorem parseValue_render (j : Json) (fuel : Nat) (rest : List Char)
    (h : noDigitHead rest = true) :
    parseValue (fuel + sizeJ j) (renderJson j ++ rest) = some (j, rest) := by
  cases j with
  | num i =>
    obtain ⟨c, t, hct, hc⟩ := intChars_head i
    obtain ⟨h1, h2⟩ := head_ne_lbrackets hc
    rw [show fuel + sizeJ (Json.num i) = fuel + 1 from by simp [sizeJ]]
    rw [show renderJson (Json.num i) = intChars i from rfl, hct, List.cons_append]
    simp only [parseValue]
    rw [if_neg h1, if_neg h2, ← List.cons_append, ← hct, parseInt_intChars i rest h]
    rfl
  | arr es =>
    cases es with
    | nil =>
      rw [show fuel + sizeJ (Json.arr JArr.nil) = fuel + 1 from by simp [sizeJ, sizeA]]
      simp [renderJson, renderElems, parseValue]
    | cons x es' =>
      rw [show fuel + sizeJ (Json.arr (JArr.cons x es'))
            = (fuel + sizeA (JArr.cons x es')) + 1 from by simp [sizeJ]; omega]
      obtain ⟨c, t, hct, hc⟩ := renderJson_head x
      have hcr : c ≠ ']' := head_ne_rbracket hc
      have hElems : renderElems (JArr.cons x es') ++ rest
          = c :: (t ++ (restElems es' ++ rest)) := by
        rw [renderElems_cons, hct]; simp
      rw [show renderJson (Json.arr (JArr.cons x es')) ++ rest
            = '[' :: (renderElems (JArr.cons x es') ++ rest) from by
          simp [renderJson]]
      rw [hElems]
      simp only [parseValue, ite_true]
      rw [if_neg hcr, ← hElems, parseElems_render x es' fuel rest h]
      rfl
  | obj ms =>
    cases ms with
    | nil =>
      rw [show fuel + sizeJ (Json.obj JObj.nil) = fuel + 1 from by simp [sizeJ, sizeO]]
      simp [renderJson, renderMembers, parseValue]
    | cons k v ms' =>
      rw [show fuel + sizeJ (Json.obj (JObj.cons k v ms'))
            = (fuel + sizeO (JObj.cons k v ms')) + 1 from by simp [sizeJ]; omega]
      have hMembers : renderMembers (JObj.cons k v ms') ++ rest
          = '"' :: ((escChars k.data ++ ['"', ':'])
              ++ (renderJson v ++ (restMembers ms' ++ rest))) := by
        rw [renderMembers_cons, renderKey]; simp
      rw [show renderJson (Json.obj (JObj.cons k v ms')) ++ rest
            = '\x7b' :: (renderMembers (JObj.cons k v ms') ++ rest) from by
          simp [renderJson]]
      rw [hMembers]
      simp only [parseValue, ite_true]
      rw [if_neg (show ('"' : Char) ≠ '\x7d' from by decide), ← hMembers,
        parseMembers_render k v ms' fuel rest h]
      rfl
  termination_by sizeJ j
  decreasing_by
    all_goals simp [sizeJ, sizeA, sizeO]

theorem parseElems_render (x : Json) (es : JArr) (fuel : Nat) (rest : List Char)
    (h : noDigitHead rest = true) :
    parseElems (fuel + sizeA (JArr.cons x es)) (renderElems (JArr.cons x es) ++ rest)
      = some (JArr.cons x es, rest) := by
  rw [show fuel + sizeA (JArr.cons x es) = (fuel + sizeJ x + sizeA es) + 1 from by
    simp [sizeA]; omega]
  rw [renderElems_cons, List.append_assoc]
  simp only [parseElems]
  rw [show fuel + sizeJ x + sizeA es = (fuel + sizeA es) + sizeJ x from by omega]
  rw [parseValue_render x (fuel + sizeA es) (restElems es ++ rest)
    (noDigitHead_restElems es rest)]
  cases es with
  | nil => simp [restElems]
  | cons y es' =>
    rw [show restElems (JArr.cons y es') ++ rest
          = ',' :: (renderElems (JArr.cons y es') ++ rest) from by simp [restElems]]
    rw [show (fuel + sizeA (JArr.cons y es')) + sizeJ x
          = (fuel + sizeJ x) + sizeA (JArr.cons y es') from by omega]
    simp only [Option.bind, ite_true]
    rw [parseElems_render y es' (fuel + sizeJ x) rest h]
    rfl
  termination_by sizeA (JArr.cons x es)
  decreasing_by
    all_goals simp [sizeJ, sizeA, sizeO]
    all_goals omega

theorem parseMembers_render (k : String) (v : Json) (ms : JObj) (fuel : Nat)
    (rest : List Char) (h : noDigitHead rest = true) :
    parseMembers (fuel + sizeO (JObj.cons k v ms)) (renderMembers (JObj.cons k v ms) ++ rest)
      = some (JObj.cons k v ms, rest) := by
  rw [show fuel + sizeO (JObj.cons k v ms) = (fuel + sizeJ v + sizeO ms) + 1 from by
    simp [sizeO]; omega]
  rw [show renderMembers (JObj.cons k v ms) ++ rest
        = '"' :: (escChars k.data
            ++ ('"' :: (':' :: (renderJson v ++ (restMembers ms ++ rest))))) from by
      rw [renderMembers_cons, renderKey]; simp]
  simp only [parseMembers, ite_true]
  rw [parseStrChars_esc k.data (':' :: (renderJson v ++ (restMembers ms ++ rest)))]
  simp only [Option.bind, ite_true]
  rw [show fuel + sizeJ v + sizeO ms = (fuel + sizeO ms) + sizeJ v from by omega]
  rw [parseValue_render v (fuel + sizeO ms) (restMembers ms ++ rest)
    (noDigitHead_restMembers ms rest)]
  cases ms with
  | nil => simp [restMembers, mk_data]
  | cons k2 v2 ms' =>
    rw [show restMembers (JObj.cons k2 v2 ms') ++ rest
          = ',' :: (renderMembers (JObj.cons k2 v2 ms') ++ rest) from by
        simp [restMembers]]
    rw [show (fuel + sizeO (JObj.cons k2 v2 ms')) + sizeJ v
          = (fuel + sizeJ v) + sizeO (JObj.cons k2 v2 ms') from by omega]
    simp only [Option.bind, ite_true]
    rw [parseMembers_render k2 v2 ms' (fuel + sizeJ v) rest h]
    simp [mk_data]
  termination_by sizeO (JObj.cons k v ms)
  decreasing_by
    all_goals simp [sizeJ, sizeA, sizeO]
    all_goals omega

end

/-- Parsing the serialized form of any structured value reproduces the
value exactly. -/
theorem parseJsonStr_stringify (j : Json) : parseJsonStr (stringifyJson j) = some j := by
  have hle := sizeJ_le_length j
  have hfuel : (renderJson j).length + 1
      = ((renderJson j).length + 1 - sizeJ j) + sizeJ j := by omega
  have h := parseValue_render j ((renderJson j).length + 1 - sizeJ j) [] (by rfl)
  rw [List.append_nil] at h
  simp only [parseJsonStr, stringifyJson]
  rw [hfuel, h]

/-! ## Lemmas: the bridge queue -/

theorem enqueueAll_queue :
    ∀ (es : List EventPayload) (st : BridgeState),
      (enqueueAll st es).jsEventQueue = st.jsEventQueue ++ es.map normalizeEvent := by
  intro es
  induction es with
  | nil => intro st; simp [enqueueAll]
  | cons e es' ih =>
    intro st
    simp only [enqueueAll, List.foldl_cons] at *
    rw [ih (queueEventForWasm st e)]
    simp [queueEventForWasm]

theorem pollList_drain :
    ∀ (q : List EventPayload) (st : BridgeState), st.jsEventQueue = q →
      pollList st q.length = (q.map PollResult.event, { st with jsEventQueue := [] }) := by
  intro q
  induction q with
  | nil =>
    intro st h
    cases st
    simp at h
    simp [pollList, h]
  | cons e q' ih =>
    intro st h
    simp only [List.length_cons, pollList, pollJsEvent, h]
    rw [ih { st with jsEventQueue := q' } rfl]
    simp

theorem pollList_empty (st : BridgeState) (h : st.jsEventQueue = []) :
    ∀ k, pollList st k = (List.replicate k PollResult.empty, st) := by
  intro k
  induction k with
  | zero => simp [pollList]
  | succ k ih => simp [pollList, pollJsEvent, h, ih, List.replicate]

/-! ## Lemmas: association-list registries -/

theorem lookupA_eraseA_self {α : Type} (uid : String) (l : List (String × α)) :
    lookupA uid (eraseA uid l) = none := by
  induction l with
  | nil => rfl
  | cons hd tl ih =>
    obtain ⟨k, v⟩ := hd
    by_cases hk : k = uid
    · simpa [eraseA, List.filter_cons, hk] using ih
    · simpa [eraseA, List.filter_cons, lookupA, hk] using ih

theorem lookupA_eraseA_ne {α : Type} {uid uid2 : String} (huv : uid2 ≠ uid)
    (l : List (String × α)) : lookupA uid2 (eraseA uid l) = lookupA uid2 l := by
  induction l with
  | nil => rfl
  | cons hd tl ih =>
    obtain ⟨k, v⟩ := hd
    by_cases hk : k = uid
    · subst hk
      simpa [eraseA, List.filter_cons, lookupA, Ne.symm huv] using ih
    · by_cases hk2 : k = uid2
      · subst hk2
        simp [eraseA, List.filter_cons, lookupA, hk]
      · simpa [eraseA, List.filter_cons, lookupA, hk, hk2] using ih

/-! ## Claim C3: strict FIFO between enqueue and poll, with the empty
sentinel after exhaustion -/

/-- Claim C3: starting from a bridge whose outbound queue is empty,
enqueueing any sequence of events and then polling returns exactly the
enqueued events, in enqueue order and in normalized form; the queue is
then exhausted and every further poll returns the `'Empty'` sentinel.
`pollJsEvent` is a total function, so it never throws. -/
theorem queue_poll_fifo (st : BridgeState) (hq : st.jsEventQueue = [])
    (es : List EventPayload) :
    (pollList (enqueueAll st es) es.length).1
        = es.map (fun e => PollResult.event (normalizeEvent e)) ∧
    (pollList (enqueueAll st es) es.length).2.jsEventQueue = [] ∧
    ∀ k, (pollList ((pollList (enqueueAll st es) es.length).2) k).1
        = List.replicate k PollResult.empty := by
  have hqe : (enqueueAll st es).jsEventQueue = es.map normalizeEvent := by
    rw [enqueueAll_queue, hq]; simp
  have hlen : es.length = (es.map normalizeEvent).length := by simp
  have hdrain := pollList_drain (es.map normalizeEvent) (enqueueAll st es) hqe
  refine ⟨?_, ?_, ?_⟩
  · rw [hlen, hdrain]
    simp [List.map_map]
  · rw [hlen, hdrain]
  · intro k
    have h2 : (pollList (enqueueAll st es) es.length).2.jsEventQueue = [] := by
      rw [hlen, hdrain]
    rw [pollList_empty _ h2 k]

/-- Witness for C3 at a concrete two-event enqueue sequence. -/
theorem queue_poll_fifo_witness :
    mkBridge.jsEventQueue = [] ∧
    (pollList (enqueueAll mkBridge
        [{ DebugRayMarch := some RayMarchDebug.Normals }, { Drive := some () }])
      ([{ DebugRayMarch := some RayMarchDebug.Normals }, { Drive := some () }] :
        List EventPayload).length).1
      = ([{ DebugRayMarch := some RayMarchDebug.Normals }, { Drive := some () }] :
          List EventPayload).map (fun e => PollResult.event (normalizeEvent e)) :=
  ⟨rfl, (queue_poll_fifo mkBridge rfl _).1⟩

/-! ## Claim C9: behavior after `destroy` -/

/-- Claim C9: `destroy` clears both the outbound queue and the subscriber
list, regardless of the queue contents before disposal; afterwards every
poll returns the `'Empty'` sentinel and an enqueue is still accepted (it
is a total operation that appends to the now-cleared queue). -/
theorem destroy_then_poll_empty (st : BridgeState) :
    (destroy st).jsEventQueue = [] ∧
    (destroy st).wasmEventHandlers = [] ∧
    (∀ k, (pollList (destroy st) k).1 = List.replicate k PollResult.empty) ∧
    ∀ e, (queueEventForWasm (destroy st) e).jsEventQueue = [normalizeEvent e] := by
  refine ⟨rfl, rfl, ?_, ?_⟩
  · intro k
    simp [pollList_empty (destroy st) rfl k]
  · intro e
    simp [queueEventForWasm, destroy]

/-! ## Claim C7: structured ViewModel payloads become strings that parse
back to the original value -/

/-- Claim C7: enqueueing an event whose `ViewModel` payload is a
structured value yields, at poll time, an event whose `ViewModel` payload
is a string, and parsing that string reproduces the original structured
value. -/
theorem viewModel_roundtrip (st : BridgeState) (hq : st.jsEventQueue = [])
    (dbg : Option RayMarchDebug) (drv : Option Unit) (j : Json) :
    (pollJsEvent (queueEventForWasm st
        { DebugRayMarch := dbg, ViewModel := some (VMPayload.obj j), Drive := drv })).1
      = PollResult.event { ViewModel := some (VMPayload.str (stringifyJson j)) } ∧
    parseJsonStr (stringifyJson j) = some j := by
  constructor
  · simp [queueEventForWasm, normalizeEvent, pollJsEvent, hq]
  · exact parseJsonStr_stringify j

/-- Witness for C7 at a concrete structured object (a two-number
array member under one key). -/
theorem viewModel_roundtrip_witness :
    mkBridge.jsEventQueue = [] ∧
    parseJsonStr (stringifyJson (Json.obj (JObj.cons "palette"
        (Json.arr (JArr.cons (Json.num 12) (JArr.cons (Json.num (-3)) JArr.nil)))
        JObj.nil)))
      = some (Json.obj (JObj.cons "palette"
        (Json.arr (JArr.cons (Json.num 12) (JArr.cons (Json.num (-3)) JArr.nil)))
        JObj.nil)) :=
  ⟨rfl, (viewModel_roundtrip mkBridge rfl none none _).2⟩

/-! ## Claim C2: inbound handler dispatch -/

/-- Claim C2 counterexample: `GameBridge.receiveWasmEvent` dispatches with
a bare `forEach` and no try/catch, so with two subscribed handlers of
which the first throws, the exception propagates (`some "boom"`) and only
one of the two handlers is invoked — refuting the claim that exceptions
are caught and every handler is invoked. -/
theorem receive_dispatch_counterexample :
    (runHandlers [fun _ => some "boom", fun _ => none]
        { DebugRayMarch := some RayMarchDebug.Normals }).2 = some "boom" ∧
    (runHandlers [fun _ => some "boom", fun _ => none]
        { DebugRayMarch := some RayMarchDebug.Normals }).1 = 1 ∧
    ([fun _ => some "boom", fun _ => none] :
        List (EventPayload → Option String)).length = 2 :=
  ⟨rfl, rfl, rfl⟩

/-- Claim C2 (amended): `GameBridge.receiveWasmEvent` invokes the
subscribed handlers in order only until the first handler that throws;
when no handler throws, every handler is invoked and the call returns
normally, but a thrown handler exception propagates to the caller and
prevents delivery to the remaining handlers.  The per-handler try/catch
the spec describes exists only in `WasmIframeWrapper`'s `WASM_EVENT`
dispatch (`wrapperDispatch`), which does invoke every handler. -/
theorem receive_dispatch_behavior (e : EventPayload) :
    (∀ hs : List (EventPayload → Option String), (∀ h ∈ hs, h e = none) →
        runHandlers hs e = (hs.length, none)) ∧
    (∀ (pre post : List (EventPayload → Option String))
        (hth : EventPayload → Option String) (msg : String),
        (∀ h ∈ pre, h e = none) → hth e = some msg →
        runHandlers (pre ++ hth :: post) e = (pre.length + 1, some msg)) ∧
    (∀ hs : List (EventPayload → Option String), wrapperDispatch hs e = hs.length) := by
  refine ⟨?_, ?_, ?_⟩
  · intro hs hok
    induction hs with
    | nil => rfl
    | cons h hs' ih =>
      have h1 : h e = none := hok h (by simp)
      simp only [runHandlers, h1]
      rw [ih (fun h' hm => hok h' (by simp [hm]))]
      simp
  · intro pre post hth msg hok hthrow
    induction pre with
    | nil => simp [runHandlers, hthrow]
    | cons h pre' ih =>
      have h1 : h e = none := hok h (by simp)
      have ih' := ih (fun h' hm => hok h' (by simp [hm]))
      rw [List.cons_append]
      simp only [runHandlers, h1, ih']
      simp
  · intro hs
    induction hs with
    | nil => rfl
    | cons h hs' ih =>
      simp only [wrapperDispatch]
      cases h e <;> simp [ih]

/-- Witness for the amended C2: a single non-throwing handler is invoked
and dispatch returns normally. -/
theorem receive_dispatch_behavior_witness :
    runHandlers [fun _ : EventPayload => (none : Option String)]
        { DebugRayMarch := some RayMarchDebug.Normals }
      = (([fun _ : EventPayload => (none : Option String)]).length, none) :=
  (receive_dispatch_behavior _).1 _ (by
    intro h hm
    simp only [List.mem_singleton] at hm
    subst hm
    rfl)

/-! ## Claim C1: envelope addressing on the cross-realm channel -/

/-- Claim C1 counterexample: the `QUEUE_WASM_EVENT` envelope built by the
host wrapper's `queueEventForWasm` carries no instance identifier at all,
and a child realm whose identifier differs from the sender's does not
discard it: the child's listener enqueues the event without any
identifier check. -/
theorem envelope_addressing_counterexample :
    payloadInstanceId (queueWasmEventMessage
        { DebugRayMarch := some RayMarchDebug.Normals }).payload = none ∧
    childHandleMessage "some-other-instance" []
        (queueWasmEventMessage { DebugRayMarch := some RayMarchDebug.Normals })
      = [{ DebugRayMarch := some RayMarchDebug.Normals }] ∧
    ([{ DebugRayMarch := some RayMarchDebug.Normals }] : List EventPayload) ≠ [] :=
  ⟨rfl, rfl, by simp⟩

/-- Claim C1 (amended): child-to-host envelopes (`IFRAME_READY`,
`WASM_ERROR`, `WASM_EVENT`) always carry the child's instance identifier,
and the host wrapper discards any whose identifier does not match its
own, accepting an identifier-less (falsy) `WASM_EVENT` as broadcast; but
the host-to-child `QUEUE_WASM_EVENT` envelope carries no instance
identifier and the child enqueues it without an identifier check
(isolation of that direction relies on posting directly to the target
iframe's window, not on envelope addressing). -/
theorem envelope_addressing (childId myId : String) (e : EventPayload) (ty : MsgType)
    (err : Option String) (st : WrapperState) (p : MsgPayload)
    (q : List EventPayload) :
    payloadInstanceId (notifyParent childId ty err).payload = some childId ∧
    payloadInstanceId (forwardWasmEvent childId e).payload = some childId ∧
    payloadInstanceId (queueWasmEventMessage e).payload = none ∧
    (payloadInstanceId p ≠ some myId →
      messageListener myId st { type := MsgType.IFRAME_READY, payload := p } = (st, []) ∧
      messageListener myId st { type := MsgType.WASM_ERROR, payload := p } = (st, [])) ∧
    (payloadInstanceId p ≠ some myId → idFalsy (payloadInstanceId p) = false →
      messageListener myId st { type := MsgType.WASM_EVENT, payload := p } = (st, [])) ∧
    (∀ ev, payloadEvent p = some ev → idFalsy (payloadInstanceId p) = true →
      messageListener myId st { type := MsgType.WASM_EVENT, payload := p } = (st, [ev])) ∧
    childHandleMessage myId q (queueWasmEventMessage e) = q ++ [normalizeEvent e] := by
  refine ⟨rfl, rfl, rfl, ?_, ?_, ?_, rfl⟩
  · intro hne
    constructor <;> simp [messageListener, hne]
  · intro hne hfal
    simp [messageListener, hne, hfal]
  · intro ev hev hfal
    simp [messageListener, hfal, hev]

/-- Witness for the amended C1: a ready notification addressed to another
wrapper is discarded, and the child enqueues an unaddressed
`QUEUE_WASM_EVENT`. -/
theorem envelope_addressing_witness :
    messageListener "wrapper-a" ({} : WrapperState)
        ({ type := MsgType.IFRAME_READY,
           payload := MsgPayload.addressed { instanceId := some "wrapper-b" } } : Message)
      = (({} : WrapperState), []) ∧
    childHandleMessage "wrapper-b" []
        (queueWasmEventMessage { Drive := some () })
      = [] ++ [normalizeEvent { Drive := some () }] :=
  ⟨((envelope_addressing "x" "wrapper-a" {} MsgType.IFRAME_READY none {}
      (MsgPayload.addressed { instanceId := some "wrapper-b" }) []).2.2.2.1
      (by decide)).1,
   (envelope_addressing "x" "wrapper-b" { Drive := some () } MsgType.IFRAME_READY none {}
      MsgPayload.missing []).2.2.2.2.2.2⟩

/-! ## Claim C4: identity-checked release of the global pointers -/

/-- Claim C4: on both the teardown path (`onCleanup`) and the
initialization-failure path, the global pointers are cleared exactly when
the current poller is reference-identical to the `poll` function
registered under this instance's identifier; otherwise both pointers are
left unchanged (the clearing step is a no-op), and another instance's
registry entries are never touched. -/
theorem identity_checked_clear (uid uid2 : String) (g : GlobalState)
    (hne : uid2 ≠ uid) :
    ((onCleanupGlobals uid g).1.currentWasmEventPoller
        = if g.currentWasmEventPoller = (lookupA uid g.wasmBridgeFuncs).map (·.poll)
          then none else g.currentWasmEventPoller) ∧
    ((onCleanupGlobals uid g).1.currentWebEventReceiver
        = if g.currentWasmEventPoller = (lookupA uid g.wasmBridgeFuncs).map (·.poll)
          then none else g.currentWebEventReceiver) ∧
    ((initErrorCleanupGlobals uid g).currentWasmEventPoller
        = if g.currentWasmEventPoller = (lookupA uid g.wasmBridgeFuncs).map (·.poll)
          then none else g.currentWasmEventPoller) ∧
    ((initErrorCleanupGlobals uid g).currentWebEventReceiver
        = if g.currentWasmEventPoller = (lookupA uid g.wasmBridgeFuncs).map (·.poll)
          then none else g.currentWebEventReceiver) ∧
    lookupA uid2 (onCleanupGlobals uid g).1.wasmBridgeFuncs
        = lookupA uid2 g.wasmBridgeFuncs ∧
    lookupA uid2 (initErrorCleanupGlobals uid g).wasmBridgeFuncs
        = lookupA uid2 g.wasmBridgeFuncs :=
  ⟨rfl, rfl, rfl, rfl, lookupA_eraseA_ne hne _, lookupA_eraseA_ne hne _⟩

/-- Witness for C4: clearing for one instance leaves another instance's
registry entry untouched. -/
theorem identity_checked_clear_witness :
    ("inst-b" : String) ≠ "inst-a" ∧
    lookupA "inst-b" (onCleanupGlobals "inst-a" ({} : GlobalState)).1.wasmBridgeFuncs
      = lookupA "inst-b" ({} : GlobalState).wasmBridgeFuncs :=
  ⟨by decide, (identity_checked_clear "inst-a" "inst-b" {} (by decide)).2.2.2.2.1⟩

/-! ## Claim C5: disposal during in-flight initialization -/

/-- Claim C5: when teardown runs while the instance's initialization
promise is still registered (pending), the promise is rejected and both
registry entries for the instance are deleted, so the injected loader's
registry guard finds nothing, and a subsequently-running
initialization-failure cleanup can no longer change either global
pointer.  The hypothesis `hcons` records the source invariant that the
two pointers are always written and cleared together. -/
theorem dispose_pending_promise (uid : String) (g : GlobalState) (p : Nat)
    (hp : lookupA uid g.wasmInitPromises = some p)
    (hcons : g.currentWasmEventPoller = none → g.currentWebEventReceiver = none) :
    (onCleanupGlobals uid g).2 = [p] ∧
    lookupA uid (onCleanupGlobals uid g).1.wasmInitPromises = none ∧
    lookupA uid (onCleanupGlobals uid g).1.wasmBridgeFuncs = none ∧
    injectedScriptFindsRegistry uid (onCleanupGlobals uid g).1 = false ∧
    (initErrorCleanupGlobals uid (onCleanupGlobals uid g).1).currentWasmEventPoller
        = (onCleanupGlobals uid g).1.currentWasmEventPoller ∧
    (initErrorCleanupGlobals uid (onCleanupGlobals uid g).1).currentWebEventReceiver
        = (onCleanupGlobals uid g).1.currentWebEventReceiver := by
  have hl1 : lookupA uid (onCleanupGlobals uid g).1.wasmInitPromises = none :=
    lookupA_eraseA_self uid _
  have hl2 : lookupA uid (onCleanupGlobals uid g).1.wasmBridgeFuncs = none :=
    lookupA_eraseA_self uid _
  have hcons' : (onCleanupGlobals uid g).1.currentWasmEventPoller = none →
      (onCleanupGlobals uid g).1.currentWebEventReceiver = none := by
    intro h0
    simp only [onCleanupGlobals] at h0 ⊢
    by_cases hcond :
        g.currentWasmEventPoller = (lookupA uid g.wasmBridgeFuncs).map (·.poll)
    · simp [hcond]
    · simp only [if_neg hcond] at h0 ⊢
      exact hcons h0
  refine ⟨?_, hl1, hl2, ?_, ?_, ?_⟩
  · simp [onCleanupGlobals, hp]
  · simp [injectedScriptFindsRegistry, hl1, hl2]
  · simp only [initErrorCleanupGlobals, hl2, Option.map_none']
    by_cases hcur : (onCleanupGlobals uid g).1.currentWasmEventPoller = none
    · simp [hcur]
    · simp [hcur]
  · simp only [initErrorCleanupGlobals, hl2, Option.map_none']
    by_cases hcur : (onCleanupGlobals uid g).1.currentWasmEventPoller = none
    · simp [hcur, hcons' hcur]
    · simp [hcur]

/-- Witness for C5 at a concrete state with a pending promise entry. -/
theorem dispose_pending_promise_witness :
    lookupA "inst-a"
        ({ wasmInitPromises := [("inst-a", 7)],
           wasmBridgeFuncs := [("inst-a", ⟨1, 2⟩)],
           currentWasmEventPoller := some 1,
           currentWebEventReceiver := some 2 } : GlobalState).wasmInitPromises
      = some 7 ∧
    (onCleanupGlobals "inst-a"
        { wasmInitPromises := [("inst-a", 7)],
          wasmBridgeFuncs := [("inst-a", ⟨1, 2⟩)],
          currentWasmEventPoller := some 1,
          currentWebEventReceiver := some 2 }).2 = [7] :=
  ⟨rfl, (dispose_pending_promise "inst-a"
      { wasmInitPromises := [("inst-a", 7)],
        wasmBridgeFuncs := [("inst-a", ⟨1, 2⟩)],
        currentWasmEventPoller := some 1,
        currentWebEventReceiver := some 2 } 7 rfl (by simp)).1⟩

/-! ## Claim C6: the benign control-flow failure signature -/

/-- Claim C6: when the foreign module's initialization throws an error
whose message contains the fixed control-flow substring, the failure is
reclassified as success: the child posts the ready notification (not an
error), the injected script resolves the instance's promise, the hook
reaches the ready state with no error, and the host wrapper processing
that ready notification reports ready with no error. -/
theorem benign_control_flow (childId jsP wsP msg : String) (st : WrapperState)
    (hcfe : isControlFlowException msg = true) (hjs : jsP ≠ "") (hws : wsP ≠ "") :
    childInitNotify childId (some jsP) (some wsP) (Except.error msg)
        = notifyParent childId MsgType.IFRAME_READY none ∧
    injectedSettle (Except.error msg) = PromiseSettle.resolved ∧
    settleHookState (injectedSettle (Except.error msg))
        = { isReady := true, error := none } ∧
    messageListener childId st (notifyParent childId MsgType.IFRAME_READY none)
        = ({ isReady := true, error := none }, []) := by
  refine ⟨?_, ?_, ?_, ?_⟩
  · simp [childInitNotify, optFalsy, hjs, hws, hcfe]
  · simp [injectedSettle, hcfe]
  · simp [injectedSettle, hcfe, settleHookState]
  · simp [messageListener, notifyParent, payloadInstanceId]

/-- Witness for C6 at a concrete message containing the fixed
substring. -/
theorem benign_control_flow_witness :
    isControlFlowException "wasm init: Using exceptions for control flow" = true ∧
    injectedSettle (Except.error "wasm init: Using exceptions for control flow")
      = PromiseSettle.resolved :=
  ⟨by decide,
   (benign_control_flow "inst-1" "/pkg/a.js" "/pkg/a.wasm"
      "wasm init: Using exceptions for control flow" {} (by decide) (by decide)
      (by decide)).2.1⟩

/-! ## Claim C8: missing paths fail synchronously, before any effect -/

/-- Claim C8: when the loader script path or the module path is falsy,
the synchronous prefix of `initialize` sets the error signal and returns
with the global registries untouched, the canvas identifier unchanged,
and no loader script injected. -/
theorem missing_paths_sync_error (uid req jsP wsP : String)
    (pollRef recvRef promRef : Nat) (g : GlobalState) (canvasId : String)
    (h : jsP = "" ∨ wsP = "") :
    initSyncPrefix uid req jsP wsP pollRef recvRef promRef g canvasId
      = { error := some "WASM JS or WASM file path is missing.",
          globals := g, canvasId := canvasId, scriptInjected := false,
          rejected := [] } := by
  rcases h with h | h <;> simp [initSyncPrefix, h]

/-- Witness for C8 with an empty loader path. -/
theorem missing_paths_sync_error_witness :
    (("" : String) = "" ∨ ("/m.wasm" : String) = "") ∧
    initSyncPrefix "inst-1" "monster-view-canvas" "" "/m.wasm" 1 2 3 {} "canvas-inst-1"
      = { error := some "WASM JS or WASM file path is missing.",
          globals := {}, canvasId := "canvas-inst-1", scriptInjected := false,
          rejected := [] } :=
  ⟨Or.inl rfl,
   missing_paths_sync_error "inst-1" "monster-view-canvas" "" "/m.wasm" 1 2 3 {}
     "canvas-inst-1" (Or.inl rfl)⟩

/-! ## Claim C10: totality of the process-wide delegates -/

/-- Claim C10: `window.wasm_event` returns the `'Empty'` sentinel when no
current poller is set and when the poller throws, and forwards the
poller's value otherwise; `window.web_event` returns normally whether the
receiver is missing, throws, or succeeds. -/
theorem global_delegates_total (poller : Option (Unit → Except String PollResult))
    (receiver : Option (EventPayload → Except String Unit)) (e : EventPayload) :
    (poller = none → globalWasmEvent poller = PollResult.empty) ∧
    (∀ pf msg, poller = some pf → pf () = Except.error msg →
        globalWasmEvent poller = PollResult.empty) ∧
    (∀ pf v, poller = some pf → pf () = Except.ok v → globalWasmEvent poller = v) ∧
    globalWebEvent receiver e = Except.ok () := by
  refine ⟨?_, ?_, ?_, ?_⟩
  · intro h; subst h; rfl
  · intro pf msg hp herr
    subst hp
    simp [globalWasmEvent, herr]
  · intro pf v hp hok
    subst hp
    simp [globalWasmEvent, hok]
  · cases receiver with
    | none => rfl
    | some r => cases hre : r e <;> simp [globalWebEvent, hre]

/-- Witness for C10: a throwing poller and a missing poller both yield
the sentinel. -/
theorem global_delegates_total_witness :
    globalWasmEvent (some fun _ => Except.error "poller threw") = PollResult.empty ∧
    globalWasmEvent none = PollResult.empty :=
  ⟨(global_delegates_total (some fun _ => Except.error "poller threw") none {}).2.1
      _ "poller threw" rfl rfl,
   (global_delegates_total none none {}).1 rfl⟩

end WasmBridge
